import Mathlib

/-!
Verification of the agent behavior core of the NPC simulation.

This file gives a shallow embedding of the simulation-relevant source files:

* src/app/game/components/HealthComponent.ts (HealthComponent)
* src/app/game/core/EntityManager.ts (EntityManager)
* src/app/game/entities/NPCEntity.ts (NPCEntity: command surface, combat,
  knockback physics, collision correction, per-tick update)
* src/app/game/types/npc.ts (NPCCombatStats, DEFAULT_COMBAT_STATS)

Modelling conventions:

* JavaScript numbers are modelled as exact rationals.  Math.sqrt is modelled
  by ratSqrt below, an exact integer square root on numerator and
  denominator; it agrees with the mathematical square root on every perfect
  rational square, which covers every geometric configuration evaluated in
  this file (all of them axis aligned).
* Math.cos, Math.sin and Math.random have no computable counterpart in the
  model; they are passed in as oracle inputs through the Env structure
  (cosF, sinF and the various roll fields).  Date.now() is the Env.now
  field, in milliseconds, as in the source.
* Entity object references are modelled by the numeric entity id together
  with a lookup in the World (the set of live NPCs).  The claims only
  exercise resolvable references.
* Purely visual state (meshes, nameplates, colors, rotations, health bar
  sprites) and wall clock timeouts (the setTimeout that clears a dialogue)
  are not part of the observable state the claims talk about and are not
  modelled; the fields isTalking and currentDialogue record the state
  machine side of Say.
* The phrase randomly selected by each speaking site is passed in through
  Env as an opaque string.

The Batteries rational arithmetic definitions are irreducible by default,
which only affects elaborator side unfolding; they are restored to
semireducible here so that concrete runs of the model can be checked by
kernel evaluation.
-/

attribute [local semireducible] Rat.add Rat.mul Rat.sub Rat.inv

/-- Integer square root by binary descent, structurally recursive on fuel so
that the kernel can evaluate it.  With fuel f it is exact for n below 4 to
the power f. -/
def natSqrtGo : Nat → Nat → Nat
  | 0, _ => 0
  | fuel+1, n =>
    if n ≤ 1 then n
    else
      let r := 2 * natSqrtGo fuel (n / 4)
      if (r+1)*(r+1) ≤ n then r+1 else r

/-- Integer square root with 64 levels of fuel (enough for all values an
IEEE double could hold exactly). -/
def natSqrtB (n : Nat) : Nat := natSqrtGo 64 n

/-- Model of Math.sqrt on the rationals: square root of numerator over
square root of denominator.  Exact on perfect rational squares. -/
def ratSqrt (x : ℚ) : ℚ := mkRat (natSqrtB x.num.toNat) (natSqrtB x.den)

/-- Vector with three rational components, modelling THREE.Vector3. -/
structure Vec3 where
  x : ℚ
  y : ℚ
  z : ℚ
deriving DecidableEq

namespace Vec3

def add (a b : Vec3) : Vec3 := ⟨a.x + b.x, a.y + b.y, a.z + b.z⟩

def sub (a b : Vec3) : Vec3 := ⟨a.x - b.x, a.y - b.y, a.z - b.z⟩

/-- multiplyScalar -/
def smul (a : Vec3) (s : ℚ) : Vec3 := ⟨a.x * s, a.y * s, a.z * s⟩

def lengthSq (a : Vec3) : ℚ := a.x * a.x + a.y * a.y + a.z * a.z

def length (a : Vec3) : ℚ := ratSqrt a.lengthSq

/-- THREE.Vector3.normalize divides by the length, or by 1 when the length
is zero (divideScalar(length or 1)), leaving the zero vector unchanged. -/
def normalize (a : Vec3) : Vec3 :=
  if a.length = 0 then a else a.smul (1 / a.length)

def distanceTo (a b : Vec3) : ℚ := (a.sub b).length

def zero : Vec3 := ⟨0, 0, 0⟩

end Vec3

/-- HealthComponent from src/app/game/components/HealthComponent.ts.
The registered death callbacks are opaque effects; the model keeps their
count and a trace counter callbackRuns that is incremented once for every
damage call on which the source would run the whole callback list
(the forEach in damage). -/
structure HealthComponent where
  maxHealth : ℚ
  currentHealth : ℚ
  onDeathCallbacks : Nat
  callbackRuns : Nat
deriving DecidableEq

namespace HealthComponent

/-- constructor: maxHealth from the config, currentHealth defaulting to
maxHealth, no callbacks registered. -/
def create (maxHealth : ℚ) (currentHealth : Option ℚ) : HealthComponent :=
  ⟨maxHealth, currentHealth.getD maxHealth, 0, 0⟩

/-- damage(amount): clamp to the zero floor, then run every registered
death callback whenever the resulting health is exactly zero. -/
def damage (h : HealthComponent) (amount : ℚ) : HealthComponent :=
  let h1 := { h with currentHealth := max 0 (h.currentHealth - amount) }
  if h1.currentHealth = 0 then { h1 with callbackRuns := h1.callbackRuns + 1 } else h1

/-- heal(amount): clamp to maxHealth, no callback. -/
def heal (h : HealthComponent) (amount : ℚ) : HealthComponent :=
  { h with currentHealth := min h.maxHealth (h.currentHealth + amount) }

/-- onDeath(callback): push one more callback. -/
def onDeath (h : HealthComponent) : HealthComponent :=
  { h with onDeathCallbacks := h.onDeathCallbacks + 1 }

end HealthComponent

/-- NPCCombatStats from src/app/game/types/npc.ts. -/
structure NPCCombatStats where
  damage : ℚ
  attackRange : ℚ
  attackInterval : ℚ
  knockbackForce : ℚ
  walkSpeed : ℚ
  runSpeed : ℚ
deriving DecidableEq

/-- DEFAULT_COMBAT_STATS for the Villager profession. -/
def villagerStats : NPCCombatStats := ⟨10, 3/2, 2000, 1/2, 2, 4⟩

/-- DEFAULT_COMBAT_STATS for the Guard profession. -/
def guardStats : NPCCombatStats := ⟨25, 2, 1500, 1, 5/2, 5⟩

/-- Partial combat stats override from NPCConfig.combatStats, merged over
the profession defaults by object spread in the constructor. -/
structure CombatStatsOverride where
  damage : Option ℚ
  attackRange : Option ℚ
  attackInterval : Option ℚ
  knockbackForce : Option ℚ
  walkSpeed : Option ℚ
  runSpeed : Option ℚ
deriving DecidableEq

def noOverride : CombatStatsOverride := ⟨none, none, none, none, none, none⟩

def mergeStats (base : NPCCombatStats) (o : CombatStatsOverride) : NPCCombatStats :=
  ⟨o.damage.getD base.damage, o.attackRange.getD base.attackRange,
   o.attackInterval.getD base.attackInterval, o.knockbackForce.getD base.knockbackForce,
   o.walkSpeed.getD base.walkSpeed, o.runSpeed.getD base.runSpeed⟩

/-- Full observable state of one NPCEntity: the id and transform position
of the Entity base class, the owned HealthComponent, the immutable combat
stats, the knockback velocity, and every field of the NPCState record. -/
structure NPC where
  id : Nat
  position : Vec3
  health : HealthComponent
  stats : NPCCombatStats
  knockbackVelocity : Vec3
  circleAngle : ℚ
  lastCombatSpeechTime : ℚ
  isMoving : Bool
  isRunning : Bool
  targetPosition : Option Vec3
  targetEntity : Option Nat
  isTalking : Bool
  currentDialogue : Option String
  isAttacking : Bool
  lastAttackTime : ℚ
  isHit : Bool
  hitRecoveryTime : ℚ
  inCombat : Bool
  combatTarget : Option Nat
  attackAnimationTime : ℚ
  isDead : Bool
  deathTime : ℚ
  deathAnimationComplete : Bool
  circlingClockwise : Bool
  lastDirectionChangeTime : ℚ
  isFollowing : Bool
  followTarget : Option Nat
  followDistance : ℚ
  isWandering : Bool
  lastWanderTime : ℚ
  wanderTarget : Option Vec3
deriving DecidableEq

/-- The set of live NPCs held by the EntityManager, as read by the spatial
queries of NPCEntity.  (The generic two phase EntityManager itself is
modelled separately below for claim C2.) -/
structure World where
  npcs : List NPC
deriving DecidableEq

def World.find (w : World) (nid : Nat) : Option NPC :=
  w.npcs.find? (fun n => n.id == nid)

def World.set (w : World) (n : NPC) : World :=
  ⟨w.npcs.map (fun m => if m.id == n.id then n else m)⟩

/-- Oracle inputs for one call into the model: the wall clock (Date.now in
milliseconds), the trigonometric tables, and the outcome of every
Math.random draw a call might make, together with the phrase each speaking
site would pick. -/
structure Env where
  now : ℚ
  cosF : ℚ → ℚ
  sinF : ℚ → ℚ
  wanderIntervalRoll : ℚ
  wanderChanceRoll : ℚ
  wanderAngle : ℚ
  wanderDistRoll : ℚ
  wanderSpeakRoll : ℚ
  wanderPhrase : String
  attackSpeakRoll : ℚ
  attackPhrase : String
  hurtSpeakRoll : ℚ
  hurtPhrase : String
  deathPhrase : String
  followPhrase : String

namespace NPC

/-- MoveTo with a THREE.Vector3 target. -/
def moveToPos (s : NPC) (target : Vec3) (shouldRun : Bool) : NPC :=
  { s with isMoving := true, isRunning := shouldRun,
           targetPosition := some target, targetEntity := none }

/-- MoveTo with an Entity target: the target position is read at call time
and the entity is tracked. -/
def moveToEntity (s : NPC) (target : NPC) (shouldRun : Bool) : NPC :=
  { s with isMoving := true, isRunning := shouldRun,
           targetEntity := some target.id,
           targetPosition := some target.position }

/-- stopFollowing: clears the following state only when it was active. -/
def stopFollowing (s : NPC) : NPC :=
  if s.isFollowing then
    { s with isFollowing := false, followTarget := none, isMoving := false,
             targetPosition := none, targetEntity := none }
  else s

/-- Stop: clears movement, combat and wandering state, then stopFollowing. -/
def stop (s : NPC) : NPC :=
  stopFollowing
    { s with isMoving := false, isRunning := false, targetPosition := none,
             targetEntity := none, inCombat := false, combatTarget := none,
             isWandering := false, wanderTarget := none }

/-- Say: set the talking flag and the current dialogue.  The TTS side
effect and the wall clock timeout that later clears the flag are external
to the tick model. -/
def say (s : NPC) (message : String) : NPC :=
  { s with isTalking := true, currentDialogue := some message }

/-- engageInCombat: combat state plus movement state toward the target. -/
def engageInCombat (s : NPC) (target : NPC) : NPC :=
  { s with inCombat := true, combatTarget := some target.id, isMoving := true,
           targetEntity := some target.id, targetPosition := some target.position }

/-- startFollowing: stop any current following, set the following state,
then acknowledge with a phrase. -/
def startFollowing (s : NPC) (target : NPC) (phrase : String) : NPC :=
  say { s.stopFollowing with
        isFollowing := true, followTarget := some target.id, isMoving := true } phrase

/-- die: set the death state, clear movement and combat intent, say a death
phrase, hide the health bar (visual). -/
def die (s : NPC) (phrase : String) : NPC :=
  say { s with isDead := true, deathTime := 0, isMoving := false, inCombat := false,
               combatTarget := none, targetEntity := none, targetPosition := none } phrase

end NPC

/-- Attacker argument of takeDamage: absent, another NPC (by id), or the
player (only its transform position is read; instanceof NPCEntity is
false so no auto engage happens). -/
inductive AttackerRef where
  | noAttacker
  | npc (aid : Nat)
  | player (pos : Vec3)
deriving DecidableEq

def attackerPosition (w : World) (a : AttackerRef) : Option Vec3 :=
  match a with
  | .noAttacker => none
  | .npc aid => (w.find aid).map NPC.position
  | .player p => some p

/-- getNPCsByDistance without filter options: every other NPCEntity in the
registry paired with its distance to self, sorted ascending by distance
(insertion sort modelling the stable Array.prototype.sort). -/
def insertByDist (p : NPC × ℚ) : List (NPC × ℚ) → List (NPC × ℚ)
  | [] => [p]
  | q :: l => if p.2 < q.2 then p :: q :: l else q :: insertByDist p l

def sortByDist (l : List (NPC × ℚ)) : List (NPC × ℚ) := l.foldr insertByDist []

def getNPCsByDistance (w : World) (s : NPC) : List (NPC × ℚ) :=
  sortByDist ((w.npcs.filter (fun n => n.id != s.id)).map
    (fun n => (n, s.position.distanceTo n.position)))

/-- checkCollisionWithNPCs: for every other NPC within twice the collision
radius (0.75), accumulate half of the overlap along the push apart
direction. -/
def checkCollisionWithNPCs (w : World) (s : NPC) : Vec3 :=
  (getNPCsByDistance w s).foldl
    (fun correction p =>
      if p.2 < (3/4) * 2 then
        let pushDirection := (s.position.sub p.1.position).normalize
        let overlap := (3/4) * 2 - p.2
        correction.add (pushDirection.smul (overlap * (1/2)))
      else correction)
    Vec3.zero

/-- takeDamage(damage, attacker): apply HealthComponent damage; on a fatal
transition call die and return; otherwise set the hit flags, apply a
knockback impulse away from the attacker, auto engage an NPC attacker when
there is no combat target or the current target is healthier than the
attacker, and with a cooldown gated chance say a hurt phrase. -/
def takeDamage (w : World) (victimId : Nat) (dmg : ℚ) (attacker : AttackerRef)
    (env : Env) : World :=
  match w.find victimId with
  | none => w
  | some v0 =>
    let v := { v0 with health := v0.health.damage dmg }
    if (v.health.currentHealth ≤ (0 : ℚ)) ∧ (v.isDead = false) then
      w.set (v.die env.deathPhrase)
    else
      let v := { v with isHit := true, hitRecoveryTime := 0 }
      let v :=
        match attackerPosition w attacker with
        | some apos =>
          let knockbackDirection := (v.position.sub apos).normalize
          { v with knockbackVelocity :=
              (knockbackDirection.smul (v.stats.knockbackForce * 5)).add ⟨0, 2, 0⟩ }
        | none => v
      let v :=
        match attacker with
        | .npc aid =>
          match w.find aid with
          | some a =>
            let shouldEngage : Bool :=
              match v.combatTarget with
              | none => true
              | some ct =>
                match w.find ct with
                | some ctN => decide (ctN.health.currentHealth > a.health.currentHealth)
                | none => false
            if shouldEngage then v.engageInCombat a else v
          | none => v
        | _ => v
      let v :=
        if env.now - v.lastCombatSpeechTime ≥ 5000 ∧ env.hurtSpeakRoll < 3/20 then
          NPC.say { v with lastCombatSpeechTime := env.now } env.hurtPhrase
        else v
      w.set v

/-- attack(target): reject while the attack cooldown is running; otherwise
if the target is within attackRange start the attack animation, reset the
cooldown, deal damage to an NPC target and maybe say an attack phrase. -/
def attack (w : World) (attackerId targetId : Nat) (env : Env) : World :=
  match w.find attackerId, w.find targetId with
  | some a, some t =>
    if env.now - a.lastAttackTime < a.stats.attackInterval then w
    else
      let dist := a.position.distanceTo t.position
      if dist ≤ a.stats.attackRange then
        let a1 := { a with isAttacking := true, lastAttackTime := env.now,
                           attackAnimationTime := 0 }
        let w1 := w.set a1
        let w2 := takeDamage w1 targetId a1.stats.damage (.npc attackerId) env
        match w2.find attackerId with
        | some a2 =>
          if env.now - a2.lastCombatSpeechTime ≥ 5000 ∧ env.attackSpeakRoll < 3/20 then
            w2.set (NPC.say { a2 with lastCombatSpeechTime := env.now } env.attackPhrase)
          else w2
        | none => w2
      else w
  | _, _ => w

/-- tryStartWandering: when fully idle, past the randomized wander
interval, and the 50 percent roll succeeds, pick a random point within the
wander radius 5 of the current position, start moving there, and with a 30
percent chance say a wander phrase. -/
def tryStartWandering (s : NPC) (env : Env) : NPC :=
  let nowS := env.now * (1/1000)
  if s.isWandering = false ∧ s.isMoving = false ∧ s.inCombat = false ∧
      s.isFollowing = false ∧ s.isTalking = false ∧ s.isAttacking = false ∧
      nowS - s.lastWanderTime > 4 + env.wanderIntervalRoll * (8 - 4) ∧
      env.wanderChanceRoll < 1/2 then
    let angle := env.wanderAngle
    let distance := env.wanderDistRoll * 5
    let wt : Vec3 := ⟨s.position.x + env.cosF angle * distance, 0,
                      s.position.z + env.sinF angle * distance⟩
    let s1 := { s with isWandering := true, wanderTarget := some wt,
                       lastWanderTime := nowS }
    let s2 := s1.moveToPos wt false
    if env.wanderSpeakRoll < 3/10 then s2.say env.wanderPhrase else s2
  else s

/-- NPCEntity constructor: initial state record, profession based max
health, merged combat stats, then an immediate tryStartWandering. -/
def mkNPC (nid : Nat) (pos : Vec3) (isGuard : Bool) (cfgMaxHealth : Option ℚ)
    (ov : CombatStatsOverride) (circleAngle0 : ℚ) (clockwise0 : Bool) (env : Env) : NPC :=
  let baseMaxHealth : ℚ := if isGuard then 150 else 100
  let mh := cfgMaxHealth.getD baseMaxHealth
  let s : NPC := {
    id := nid, position := pos,
    health := HealthComponent.create mh (some mh),
    stats := mergeStats (if isGuard then guardStats else villagerStats) ov,
    knockbackVelocity := Vec3.zero,
    circleAngle := circleAngle0,
    lastCombatSpeechTime := 0,
    isMoving := false, isRunning := false,
    targetPosition := none, targetEntity := none,
    isTalking := false, currentDialogue := none,
    isAttacking := false, lastAttackTime := 0,
    isHit := false, hitRecoveryTime := 0,
    inCombat := false, combatTarget := none,
    attackAnimationTime := 0,
    isDead := false, deathTime := 0, deathAnimationComplete := false,
    circlingClockwise := clockwise0, lastDirectionChangeTime := 0,
    isFollowing := false, followTarget := none, followDistance := 2,
    isWandering := false, lastWanderTime := 0, wanderTarget := none }
  tryStartWandering s env

/-- Death branch of update: advance the death timer, complete the one
second fall animation, and once the fade that starts at 7 seconds finishes
at 10 seconds request removal from the EntityManager (the returned flag)
and stop processing.  Positions are never touched here. -/
def deathPhase (s : NPC) (dt : ℚ) : NPC × Bool :=
  if s.isDead then
    let s1 := { s with deathTime := s.deathTime + dt }
    let s2 :=
      if (s1.deathAnimationComplete = false) ∧ (min s1.deathTime 1 ≥ 1) then
        { s1 with deathAnimationComplete := true }
      else s1
    if (s2.deathTime > 7) ∧ (min ((s2.deathTime - 7) * (1/3)) 1 ≥ 1) then
      (s2, true)
    else (s2, false)
  else (s, false)

/-- Knockback branch of update: while the knockback velocity is nonzero,
apply gravity to it, integrate the position, clamp to the ground plane
(zeroing the velocity on contact) and otherwise damp the horizontal
velocity components by the factor 0.95. -/
def knockbackPhase (s : NPC) (dt : ℚ) : NPC :=
  if s.knockbackVelocity.lengthSq > 0 then
    let v1 : Vec3 := ⟨s.knockbackVelocity.x, s.knockbackVelocity.y - (98/10) * dt,
                      s.knockbackVelocity.z⟩
    let p1 := s.position.add (v1.smul dt)
    if p1.y < 0 then
      { s with position := ⟨p1.x, 0, p1.z⟩, knockbackVelocity := ⟨0, 0, 0⟩ }
    else
      { s with position := p1,
               knockbackVelocity := ⟨v1.x * (95/100), v1.y, v1.z * (95/100)⟩ }
  else s

/-- Hit stun branch of update: a red flash (visual) that expires half a
second after the hit; it does not touch the position. -/
def hitPhase (s : NPC) (dt : ℚ) : NPC :=
  if s.isHit then
    let s1 := { s with hitRecoveryTime := s.hitRecoveryTime + dt }
    if s1.hitRecoveryTime ≥ 1/2 then
      { s1 with isHit := false, hitRecoveryTime := 0 }
    else s1
  else s

/-- Attack animation branch of update: a half second swing after which the
attacking flag clears. -/
def attackAnimPhase (s : NPC) (dt : ℚ) : NPC :=
  if s.isAttacking then
    let s1 := { s with attackAnimationTime := s.attackAnimationTime + dt }
    if s1.attackAnimationTime ≤ 1/2 then s1
    else { s1 with isAttacking := false, attackAnimationTime := 0 }
  else s

/-- Following branch of update: when following a target and farther than
followDistance plus tolerance, walk toward a point behind the target and
apply full collision correction. -/
def followPhase (w : World) (s : NPC) (dt : ℚ) : NPC :=
  if s.isFollowing then
    match s.followTarget.bind w.find with
    | none => s
    | some t =>
      let targetPos := t.position
      let dist := s.position.distanceTo targetPos
      let targetForward := (t.position.sub s.position).normalize
      let followPos := targetPos.sub (targetForward.smul s.followDistance)
      if dist > s.followDistance + 1/2 then
        let moveDir := ((followPos.sub s.position).normalize).smul (dt * s.stats.walkSpeed)
        let s1 := { s with position := s.position.add moveDir }
        let correction := checkCollisionWithNPCs w s1
        { s1 with position := s1.position.add correction }
      else s
  else s

/-- Combat branch of update: run toward a distant target, circle a close
one, apply reduced collision correction, attack when in range, and
disengage when the target dies or is beyond 15 units. -/
def combatPhase (w : World) (selfId : Nat) (dt : ℚ) (env : Env) : World :=
  match w.find selfId with
  | none => w
  | some s =>
    if s.inCombat then
      match s.combatTarget.bind w.find with
      | none => w
      | some t =>
        let dist := s.position.distanceTo t.position
        let optimalDistance := s.stats.attackRange * (8/10)
        let s1 :=
          if dist > s.stats.attackRange * (12/10) then
            let moveDir := ((t.position.sub s.position).normalize).smul (dt * s.stats.runSpeed)
            { s with position := s.position.add moveDir }
          else
            let currentTime := env.now * (1/1000)
            let sa :=
              if currentTime - s.lastDirectionChangeTime ≥ 3 then
                { s with circlingClockwise := !s.circlingClockwise,
                         lastDirectionChangeTime := currentTime }
              else s
            let sb := { sa with circleAngle :=
              sa.circleAngle + dt * 1 * (if sa.circlingClockwise then -1 else 1) }
            let circlePos : Vec3 :=
              ⟨t.position.x + env.cosF sb.circleAngle * optimalDistance,
               t.position.y,
               t.position.z + env.sinF sb.circleAngle * optimalDistance⟩
            let moveDir := ((circlePos.sub sb.position).normalize).smul (dt * sb.stats.walkSpeed)
            { sb with position := sb.position.add moveDir }
        let correction := checkCollisionWithNPCs w s1
        let s2 := { s1 with position := s1.position.add (correction.smul (3/10)) }
        let w1 := w.set s2
        let w2 := if dist ≤ s2.stats.attackRange then attack w1 selfId t.id env else w1
        match w2.find selfId, w2.find t.id with
        | some s3, some t3 =>
          if (t3.health.currentHealth ≤ (0 : ℚ)) ∨ (dist > 15) then
            w2.set { s3 with inCombat := false, combatTarget := none }
          else w2
        | _, _ => w2
    else w

/-- Commanded movement and wandering branch of update: runs only when
moving and neither in combat nor following; tries to start wandering,
clears wandering on arrival (via Stop), refreshes a tracked target
position, integrates toward the target at walk or run speed with full
collision correction, and clears the movement state on arrival. -/
def movePhase (w : World) (selfId : Nat) (dt : ℚ) (env : Env) : World :=
  match w.find selfId with
  | none => w
  | some s =>
    if (s.isMoving = true) ∧ (s.inCombat = false) ∧ (s.isFollowing = false) then
      let s1 := tryStartWandering s env
      let s2 :=
        if s1.isWandering then
          match s1.wanderTarget with
          | some wt =>
            if s1.position.distanceTo wt < 1/10 then
              NPC.stop { s1 with isWandering := false, wanderTarget := none }
            else s1
          | none => s1
        else s1
      let s3 :=
        match s2.targetEntity.bind w.find with
        | some te => { s2 with targetPosition := some te.position }
        | none => s2
      match s3.targetPosition with
      | some tp =>
        let direction := tp.sub s3.position
        let dist := direction.length
        if dist > 1/10 then
          let dirN := direction.normalize
          let currentSpeed := if s3.isRunning then s3.stats.runSpeed else s3.stats.walkSpeed
          let movement := dirN.smul (dt * currentSpeed)
          let s4 := { s3 with position := s3.position.add movement }
          let correction := checkCollisionWithNPCs w s4
          w.set { s4 with position := s4.position.add correction }
        else
          w.set { s3 with isMoving := false, isRunning := false,
                          targetPosition := none, targetEntity := none }
      | none => w.set s3
    else w

/-- NPCEntity.update(deltaTime): the death branch runs first and, while
dead, suppresses everything else; otherwise knockback, hit stun, attack
animation, following, combat and commanded movement run in order.  The
Bool result records whether removal from the EntityManager was requested
this tick.  The Entity base class update iterates an empty component map
and is a no-op. -/
def npcUpdate (w : World) (selfId : Nat) (dt : ℚ) (env : Env) : World × Bool :=
  match w.find selfId with
  | none => (w, false)
  | some s =>
    let (s1, removeRequested) := deathPhase s dt
    if s.isDead then
      (w.set s1, removeRequested)
    else
      let s2 := knockbackPhase s1 dt
      let s3 := hitPhase s2 dt
      let s4 := attackAnimPhase s3 dt
      let s5 := followPhase w s4 dt
      let w1 := (w.set s5)
      let w2 := combatPhase w1 selfId dt env
      let w3 := movePhase w2 selfId dt env
      (w3, false)

/-- Entity as seen by the EntityManager model for claim C2: the readonly
id plus an update counter standing for the mutable state an update call
changes.  (The manager is generic over entities; nothing NPC specific is
needed there.) -/
structure EMEntity where
  id : Nat
  ticks : Nat
deriving DecidableEq

/-- EntityManager state: the committed Map entries in insertion order, the
entitiesToAdd and entitiesToRemove staging arrays, and a trace of cleanup
calls recording each cleaned entity with its state at the moment cleanup
ran.  Staged removals are identified by entity id: removeEntity receives
the entity reference, which aliases the committed Map entry, and only its
id is consulted by the delete. -/
structure EMState where
  entities : List EMEntity
  toAdd : List EMEntity
  toRemove : List Nat
  cleaned : List EMEntity
deriving DecidableEq

/-- Map.set: overwrite the entry with the same key keeping its position,
else append. -/
def mapSet (l : List EMEntity) (e : EMEntity) : List EMEntity :=
  if l.any (fun x => x.id == e.id) then
    l.map (fun x => if x.id == e.id then e else x)
  else l ++ [e]

/-- Addition processing loop of EntityManager.update: pop entitiesToAdd
from the end until empty, inserting each into the Map. -/
def processAdds (st : EMState) : EMState :=
  { st with entities := st.toAdd.reverse.foldl mapSet st.entities, toAdd := [] }

/-- One entity update inside the forEach: the entity state is replaced in
place and whatever the update staged is pushed onto the staging arrays
(addEntity and removeEntity push). -/
def updateOne (beh : EMEntity → EMEntity × List EMEntity × List Nat)
    (acc : EMState) (e : EMEntity) : EMState :=
  let r := beh e
  { acc with entities := acc.entities ++ [r.1],
             toAdd := acc.toAdd ++ r.2.1,
             toRemove := acc.toRemove ++ r.2.2 }

/-- Update pass of EntityManager.update: forEach over the committed Map in
insertion order. -/
def runUpdates (beh : EMEntity → EMEntity × List EMEntity × List Nat)
    (st : EMState) : EMState :=
  st.entities.foldl (updateOne beh) { st with entities := [] }

/-- Removal processing loop of EntityManager.update: pop entitiesToRemove
from the end until empty; for each, call cleanup on the referenced entity
(recorded in the cleaned trace with its current state) and delete its key
from the Map. -/
def removeOne (acc : EMState) (rid : Nat) : EMState :=
  match acc.entities.find? (fun e => e.id == rid) with
  | some e =>
    { acc with entities := acc.entities.eraseP (fun x => x.id == rid),
               cleaned := acc.cleaned ++ [e] }
  | none => acc

def processRemovals (st : EMState) : EMState :=
  st.toRemove.reverse.foldl removeOne { st with toRemove := [] }

/-- EntityManager.update(deltaTime): process additions, then update every
committed entity, then process removals. -/
def emUpdate (beh : EMEntity → EMEntity × List EMEntity × List Nat)
    (st : EMState) : EMState :=
  processRemovals (runUpdates beh (processAdds st))

/-- getEntity(id): committed entities only. -/
def getEntity (st : EMState) (eid : Nat) : Option EMEntity :=
  st.entities.find? (fun e => e.id == eid)

/-- getAllEntities(): committed entities only. -/
def getAllEntities (st : EMState) : List EMEntity := st.entities

/-- Entity update that increments the tick counter and stages nothing. -/
def tickBeh : EMEntity → EMEntity × List EMEntity × List Nat :=
  fun e => (⟨e.id, e.ticks + 1⟩, [], [])

/-- Manager state with one committed entity already staged for removal
before the tick. -/
def emSt0 : EMState := ⟨[⟨1, 0⟩], [], [1], []⟩

/-- Manager state with two committed entities, one staged addition and one
staged removal. -/
def emSt1 : EMState := ⟨[⟨1, 0⟩, ⟨2, 0⟩], [⟨3, 0⟩], [2], []⟩

/-- Trigonometric oracle used by the concrete scenarios; its value is
irrelevant there because every circling movement in them is scaled by a
zero walk speed or never reached. -/
def trigZero : ℚ → ℚ := fun _ => 0

/-- Concrete oracle: wall clock t, all chance rolls failing (value 1, so
no wandering and no optional speech), fixed phrases. -/
def envAt (t : ℚ) : Env :=
  { now := t, cosF := trigZero, sinF := trigZero,
    wanderIntervalRoll := 0, wanderChanceRoll := 1, wanderAngle := 0,
    wanderDistRoll := 0, wanderSpeakRoll := 1, wanderPhrase := "wander",
    attackSpeakRoll := 1, attackPhrase := "attack",
    hurtSpeakRoll := 1, hurtPhrase := "hurt",
    deathPhrase := "death", followPhrase := "follow" }

def envQuiet : Env := envAt 99000

/-- Two freshly constructed villagers one unit apart (the construction
wander roll fails, leaving them idle). -/
def npcIdle1 : NPC := mkNPC 1 ⟨0, 0, 0⟩ false none noOverride 0 false envQuiet

def npcIdle2 : NPC := mkNPC 2 ⟨1, 0, 0⟩ false none noOverride 0 false envQuiet

/-- An agent that has died (die is the internal transition takeDamage
performs on a fatal hit). -/
def deadNPC : NPC := NPC.die npcIdle1 "death"

/-- Combat stats override for the C6 scenario: movement speeds and
knockback force zeroed (legal through NPCConfig.combatStats), so the
attacker holds its ground up to collision correction and the victim,
which is never updated, stays put. -/
def c6Ov : CombatStatsOverride := ⟨none, none, none, some 0, some 0, some 0⟩

/-- Guard attacker of the C6 scenario: attackRange 2 and attackInterval
1500 are the guard defaults the claim quotes. -/
def c6A0 : NPC := mkNPC 1 ⟨0, 0, 0⟩ true none c6Ov 0 false envQuiet

/-- Stationary guard victim at distance 1. -/
def c6B : NPC := mkNPC 2 ⟨1, 0, 0⟩ true none c6Ov 0 false envQuiet

def c6A : NPC := c6A0.engageInCombat c6B

def c6W : World := ⟨[c6A, c6B]⟩

/-- Three update ticks on the attacker spanning 1600 milliseconds of
Date.now time (at 100000, 100800 and 101600), each with deltaTime 0.8
seconds. -/
def c6Run : World :=
  (npcUpdate ((npcUpdate ((npcUpdate c6W 1 (4/5) (envAt 100000)).1)
    1 (4/5) (envAt 100800)).1) 1 (4/5) (envAt 101600)).1

/-- Two update ticks on the attacker confined to 800 milliseconds. -/
def c6RunShort : World :=
  (npcUpdate ((npcUpdate c6W 1 (4/5) (envAt 100000)).1) 1 (4/5) (envAt 100800)).1

/-- Two overlapping idle villagers for the C9 scenario. -/
def c9W : World := ⟨[npcIdle1, npcIdle2]⟩

/-- One simulation tick of the C9 scenario: update both agents. -/
def c9Tick (w : World) : World :=
  (npcUpdate ((npcUpdate w 1 1 envQuiet).1) 2 1 envQuiet).1

/-- Agent on the ground that just received the knockback impulse (0,2,0);
all behavior flags are off, as for a fresh villager hit by the player
from exactly its own position (zero knockback direction). -/
def knockNPC : NPC := { npcIdle1 with knockbackVelocity := ⟨0, 2, 0⟩ }

/-- One knockback scenario tick on the agent with the given id. -/
def knockTick (sid : Nat) (dt : ℚ) (env : Env) (w : World) : World :=
  (npcUpdate w sid dt env).1

/-- Vertical velocity after n airborne steps of the closed form. -/
def vyC (dt : ℚ) (n : ℕ) : ℚ := 2 - (98/10) * dt * n

/-- Height after n airborne steps of the closed form. -/
def yC (dt : ℚ) (n : ℕ) : ℚ := 2 * dt * n - (49/10) * dt^2 * (n * (n+1))

/-- Airborne state after n closed form steps for a generic start state. -/
def airNPC (s : NPC) (dt : ℚ) (n : ℕ) : NPC :=
  { s with position := ⟨s.position.x, yC dt n, s.position.z⟩,
           knockbackVelocity := ⟨0, vyC dt n, 0⟩ }

/-- Grounded rest state: velocity zero, height zero. -/
def groundNPC (s : NPC) : NPC :=
  { s with position := ⟨s.position.x, 0, s.position.z⟩,
           knockbackVelocity := ⟨0, 0, 0⟩ }

/-- Health operation for claim C7. -/
inductive HealthOp where
  | damageOp (amount : ℚ)
  | healOp (amount : ℚ)
deriving DecidableEq

def HealthOp.amount : HealthOp → ℚ
  | .damageOp a => a
  | .healOp a => a

def applyHealthOp (h : HealthComponent) : HealthOp → HealthComponent
  | .damageOp a => h.damage a
  | .healOp a => h.heal a

/-- Component with 50 health and one registered death callback, for C3. -/
def hc50 : HealthComponent := (HealthComponent.create 50 none).onDeath

theorem find?_mem_pred {l : List NPC} {p : NPC → Bool} {s : NPC}
    (h : l.find? p = some s) : p s = true :=
  List.find?_some h

theorem find?_map_set (l : List NPC) (sid : Nat) (n : NPC) (hid : n.id = sid)
    (h : (l.find? (fun m => m.id == sid)).isSome = true) :
    (l.map (fun m => if m.id == n.id then n else m)).find? (fun m => m.id == sid) = some n := by
  induction l with
  | nil => simp at h
  | cons a l ih =>
    by_cases ha : a.id = sid
    · have e1 : (if a.id == n.id then n else a) = n := if_pos (by simp [hid, ha])
      simp only [List.map_cons, e1]
      exact List.find?_cons_of_pos _ (by simp [hid])
    · have e1 : (if a.id == n.id then n else a) = a := if_neg (by simp [hid, ha])
      simp only [List.map_cons, e1]
      rw [List.find?_cons_of_neg _ (by simp [ha])]
      apply ih
      rwa [List.find?_cons_of_neg _ (by simp [ha])] at h

theorem map_set_self (l : List NPC) (s : NPC)
    (h : ∀ n ∈ l, n.id = s.id → n = s) :
    l.map (fun m => if m.id == s.id then s else m) = l := by
  have hc : ∀ a ∈ l, (fun m => if m.id == s.id then s else m) a = id a := by
    intro a ha
    by_cases h2 : a.id = s.id
    · simp [h2, h a ha h2]
    · simp [h2]
  rw [List.map_congr_left hc, List.map_id]

theorem knockbackPhase_keeps (s : NPC) (dt : ℚ) :
    (knockbackPhase s dt).id = s.id ∧ (knockbackPhase s dt).isDead = s.isDead ∧
    (knockbackPhase s dt).isHit = s.isHit ∧ (knockbackPhase s dt).isAttacking = s.isAttacking ∧
    (knockbackPhase s dt).isFollowing = s.isFollowing ∧ (knockbackPhase s dt).inCombat = s.inCombat ∧
    (knockbackPhase s dt).isMoving = s.isMoving := by
  unfold knockbackPhase
  split
  · dsimp only
    split <;> exact ⟨rfl, rfl, rfl, rfl, rfl, rfl, rfl⟩
  · exact ⟨rfl, rfl, rfl, rfl, rfl, rfl, rfl⟩

theorem deathPhase_keeps (s : NPC) (dt : ℚ) :
    ((deathPhase s dt).1).id = s.id ∧ ((deathPhase s dt).1).position = s.position ∧
    ((deathPhase s dt).1).isDead = s.isDead ∧
    ((deathPhase s dt).1).health = s.health ∧
    ((deathPhase s dt).1).knockbackVelocity = s.knockbackVelocity := by
  unfold deathPhase
  split
  · dsimp only
    split <;> dsimp only <;> split <;> exact ⟨rfl, rfl, rfl, rfl, rfl⟩
  · exact ⟨rfl, rfl, rfl, rfl, rfl⟩

theorem hitPhase_of_not (s : NPC) (dt : ℚ) (h : s.isHit = false) : hitPhase s dt = s := by
  unfold hitPhase; simp [h]

theorem attackAnimPhase_of_not (s : NPC) (dt : ℚ) (h : s.isAttacking = false) :
    attackAnimPhase s dt = s := by
  unfold attackAnimPhase; simp [h]

theorem followPhase_of_not (w : World) (s : NPC) (dt : ℚ) (h : s.isFollowing = false) :
    followPhase w s dt = s := by
  unfold followPhase; simp [h]

theorem knockbackPhase_of_zero (s : NPC) (dt : ℚ) (h : s.knockbackVelocity = Vec3.zero) :
    knockbackPhase s dt = s := by
  unfold knockbackPhase
  rw [h]
  simp [Vec3.lengthSq, Vec3.zero]

theorem deathPhase_of_alive (s : NPC) (dt : ℚ) (h : s.isDead = false) :
    deathPhase s dt = (s, false) := by
  unfold deathPhase; simp [h]

theorem combatPhase_of_not (w : World) (sid : Nat) (dt : ℚ) (env : Env) (s : NPC)
    (hfind : w.find sid = some s) (h : s.inCombat = false) :
    combatPhase w sid dt env = w := by
  unfold combatPhase
  rw [hfind]
  simp [h]

theorem movePhase_of_not (w : World) (sid : Nat) (dt : ℚ) (env : Env) (s : NPC)
    (hfind : w.find sid = some s)
    (h : s.isMoving = false ∨ s.inCombat = true ∨ s.isFollowing = true) :
    movePhase w sid dt env = w := by
  unfold movePhase
  rw [hfind]
  rcases h with h | h | h <;> simp [h]

theorem World.find_set (w : World) (sid : Nat) (n : NPC) (hid : n.id = sid)
    (h : (w.find sid).isSome = true) : (w.set n).find sid = some n :=
  find?_map_set w.npcs sid n hid h

theorem World.set_self (w : World) (s : NPC) (h : ∀ n ∈ w.npcs, n.id = s.id → n = s) :
    w.set s = w := by
  cases w with
  | mk l => simp only [World.set, map_set_self l s h]

theorem npcUpdate_dead (w : World) (sid : Nat) (dt : ℚ) (env : Env) (s : NPC)
    (hfind : w.find sid = some s) (hdead : s.isDead = true) :
    npcUpdate w sid dt env = (w.set (deathPhase s dt).1, (deathPhase s dt).2) := by
  unfold npcUpdate
  rw [hfind]
  simp [hdead]

theorem npcUpdate_idle (w : World) (sid : Nat) (dt : ℚ) (env : Env) (s : NPC)
    (hfind : w.find sid = some s)
    (huniq : ∀ n ∈ w.npcs, n.id = sid → n = s)
    (hdead : s.isDead = false) (hmov : s.isMoving = false) (hcomb : s.inCombat = false)
    (hfol : s.isFollowing = false) (hhit : s.isHit = false) (hatk : s.isAttacking = false)
    (hkb : s.knockbackVelocity = Vec3.zero) :
    npcUpdate w sid dt env = (w, false) := by
  have hsid : s.id = sid := by simpa using find?_mem_pred hfind
  have hset : w.set s = w := World.set_self w s (fun n hn he => huniq n hn (he.trans hsid))
  unfold npcUpdate
  rw [hfind]
  simp only [deathPhase_of_alive s dt hdead, hdead,
    knockbackPhase_of_zero s dt hkb, hitPhase_of_not s dt hhit,
    attackAnimPhase_of_not s dt hatk, followPhase_of_not w s dt hfol, hset,
    combatPhase_of_not w sid dt env s hfind hcomb,
    movePhase_of_not w sid dt env s hfind (Or.inl hmov)]
  simp

theorem npcUpdate_knock (t : NPC) (dt : ℚ) (env : Env)
    (hdead : t.isDead = false) (hmov : t.isMoving = false) (hcomb : t.inCombat = false)
    (hfol : t.isFollowing = false) (hhit : t.isHit = false) (hatk : t.isAttacking = false) :
    npcUpdate ⟨[t]⟩ t.id dt env = (⟨[knockbackPhase t dt]⟩, false) := by
  obtain ⟨kid, kdead, khit, katk, kfol, kcomb, kmov⟩ := knockbackPhase_keeps t dt
  have hfind : (World.mk [t]).find t.id = some t := by
    simp [World.find]
  have hfindk : (World.mk [knockbackPhase t dt]).find t.id = some (knockbackPhase t dt) := by
    simp [World.find, kid]
  have hsetk : (World.mk [t]).set (knockbackPhase t dt) = ⟨[knockbackPhase t dt]⟩ := by
    simp [World.set, kid]
  unfold npcUpdate
  rw [hfind]
  simp only [deathPhase_of_alive t dt hdead, hdead,
    hitPhase_of_not _ dt (khit.trans hhit), attackAnimPhase_of_not _ dt (katk.trans hatk),
    followPhase_of_not _ _ dt (kfol.trans hfol), hsetk,
    combatPhase_of_not _ t.id dt env _ hfindk (kcomb.trans hcomb),
    movePhase_of_not _ t.id dt env _ hfindk (Or.inl (kmov.trans hmov))]
  simp

theorem damage_spec (h : HealthComponent) (a : ℚ) :
    (h.damage a).currentHealth = max 0 (h.currentHealth - a) ∧
    (h.damage a).maxHealth = h.maxHealth ∧
    (h.damage a).onDeathCallbacks = h.onDeathCallbacks ∧
    (h.damage a).callbackRuns =
      (if max 0 (h.currentHealth - a) = 0 then h.callbackRuns + 1 else h.callbackRuns) := by
  unfold HealthComponent.damage
  dsimp only
  split <;> simp_all

theorem heal_spec (h : HealthComponent) (a : ℚ) :
    (h.heal a).currentHealth = min h.maxHealth (h.currentHealth + a) ∧
    (h.heal a).maxHealth = h.maxHealth := by
  unfold HealthComponent.heal
  exact ⟨rfl, rfl⟩

theorem healthInv_foldl (ops : List HealthOp) (h : HealthComponent)
    (hh : 0 ≤ h.currentHealth ∧ h.currentHealth ≤ h.maxHealth)
    (hops : ∀ op ∈ ops, 0 ≤ op.amount) :
    0 ≤ (ops.foldl applyHealthOp h).currentHealth ∧
    (ops.foldl applyHealthOp h).currentHealth ≤ (ops.foldl applyHealthOp h).maxHealth := by
  induction ops generalizing h with
  | nil => exact hh
  | cons op ops ih =>
    have hop : 0 ≤ op.amount := hops op (by simp)
    have hstep : 0 ≤ (applyHealthOp h op).currentHealth ∧
        (applyHealthOp h op).currentHealth ≤ (applyHealthOp h op).maxHealth := by
      cases op with
      | damageOp a =>
        obtain ⟨e1, e2, -, -⟩ := damage_spec h a
        simp only [applyHealthOp, e1, e2]
        constructor
        · exact le_max_left 0 _
        · apply max_le (le_trans hh.1 hh.2)
          have : 0 ≤ a := hop
          linarith [hh.2]
      | healOp a =>
        obtain ⟨e1, e2⟩ := heal_spec h a
        simp only [applyHealthOp, e1, e2]
        constructor
        · apply le_min (le_trans hh.1 hh.2)
          have : 0 ≤ a := hop
          linarith [hh.1]
        · exact min_le_left _ _
    exact ih _ hstep (fun o ho => hops o (by simp [ho]))

/-- C10: Stop changes only the movement, combat, wander and follow intent
fields; position, health, death, talking, hit and knockback state are left
unchanged, and Stop leaves every intent flag cleared. -/
theorem C10_stop_frame (s : NPC) :
    (s.stop).position = s.position ∧
    (s.stop).health.currentHealth = s.health.currentHealth ∧
    (s.stop).isDead = s.isDead ∧
    (s.stop).isTalking = s.isTalking ∧
    (s.stop).isHit = s.isHit ∧
    (s.stop).hitRecoveryTime = s.hitRecoveryTime ∧
    (s.stop).knockbackVelocity = s.knockbackVelocity ∧
    (s.stop).isMoving = false ∧ (s.stop).isRunning = false ∧
    (s.stop).targetPosition = none ∧ (s.stop).targetEntity = none ∧
    (s.stop).inCombat = false ∧ (s.stop).combatTarget = none ∧
    (s.stop).isWandering = false ∧ (s.stop).wanderTarget = none ∧
    (s.stop).isFollowing = false := by
  unfold NPC.stop NPC.stopFollowing
  split <;> simp_all

/-- C1: the behavior flags are not mutually exclusive: engageInCombat on a
freshly constructed idle villager leaves both inCombat and isMoving true,
and startFollowing leaves both isFollowing and isMoving true. -/
theorem C1_counterexample :
    (npcIdle1.engageInCombat npcIdle2).inCombat = true ∧
    (npcIdle1.engageInCombat npcIdle2).isMoving = true ∧
    (NPC.startFollowing npcIdle1 npcIdle2 "follow").isFollowing = true ∧
    (NPC.startFollowing npcIdle1 npcIdle2 "follow").isMoving = true := by decide

/-- C1 amended: engageInCombat always sets inCombat together with
isMoving, and startFollowing sets isFollowing together with isMoving, so
several of the three flags can hold at once; what the update loop
guarantees instead is that the commanded movement branch is skipped
whenever combat or following is active. -/
theorem C1_amended :
    (∀ s t : NPC, (s.engageInCombat t).inCombat = true ∧ (s.engageInCombat t).isMoving = true) ∧
    (∀ (s t : NPC) (ph : String),
      (NPC.startFollowing s t ph).isFollowing = true ∧
      (NPC.startFollowing s t ph).isMoving = true) ∧
    (∀ (w : World) (sid : Nat) (dt : ℚ) (env : Env) (s : NPC),
      w.find sid = some s → (s.inCombat = true ∨ s.isFollowing = true) →
      movePhase w sid dt env = w) := by
  refine ⟨fun s t => ⟨rfl, rfl⟩, fun s t ph => ⟨rfl, rfl⟩, ?_⟩
  intro w sid dt env s hfind h
  exact movePhase_of_not w sid dt env s hfind (h.elim (fun h2 => Or.inr (Or.inl h2)) (fun h2 => Or.inr (Or.inr h2)))

/-- C1 amended, witness: the combined engage state of the counterexample
scenario has both flags set and its update skips the commanded movement
branch. -/
theorem C1_amended_witness :
    ((npcIdle1.engageInCombat npcIdle2).inCombat = true ∧
      (npcIdle1.engageInCombat npcIdle2).isMoving = true) ∧
    movePhase ⟨[npcIdle1.engageInCombat npcIdle2, npcIdle2]⟩ 1 1 envQuiet
      = ⟨[npcIdle1.engageInCombat npcIdle2, npcIdle2]⟩ :=
  ⟨C1_amended.1 npcIdle1 npcIdle2,
   C1_amended.2.2 ⟨[npcIdle1.engageInCombat npcIdle2, npcIdle2]⟩ 1 1 envQuiet
     (npcIdle1.engageInCombat npcIdle2) (by decide) (Or.inl (by decide))⟩

/-- C3: a second damage call while health sits at the zero floor runs the
registered death callbacks again: after damage 50 and damage 10 on a
50 health component with one callback, the callback list has run twice,
not exactly once. -/
theorem C3_counterexample :
    ((hc50.damage 50).damage 10).currentHealth = 0 ∧
    ((hc50.damage 50).damage 10).callbackRuns = 2 ∧
    ¬ (((hc50.damage 50).damage 10).callbackRuns = 1) := by decide

/-- C3 amended: damage clamps health at the zero floor and runs the death
callback list on every call whose resulting health is zero, including
repeated calls at the floor; the health value itself is a no-op once at
zero, but the callbacks are re-invoked. -/
theorem C3_amended (h : HealthComponent) (amount : ℚ) :
    (h.damage amount).currentHealth = max 0 (h.currentHealth - amount) ∧
    (h.damage amount).callbackRuns =
      (if max 0 (h.currentHealth - amount) = 0 then h.callbackRuns + 1 else h.callbackRuns) ∧
    (h.damage amount).onDeathCallbacks = h.onDeathCallbacks ∧
    (h.damage amount).maxHealth = h.maxHealth := by
  obtain ⟨e1, e2, e3, e4⟩ := damage_spec h amount
  exact ⟨e1, e4, e3, e2⟩

/-- C4: a MoveTo issued on a dead agent is not a no-op: it flips isMoving
from false to true and records a target, so the agent state changes. -/
theorem C4_counterexample :
    deadNPC.isDead = true ∧ deadNPC.isMoving = false ∧
    (deadNPC.moveToPos ⟨5, 0, 5⟩ false).isMoving = true ∧
    ¬ (deadNPC.moveToPos ⟨5, 0, 5⟩ false = deadNPC) := by decide

/-- C4 amended: command surface calls on a dead agent do mutate the intent
fields (MoveTo sets isMoving and the target), but the update gate on
isDead skips all movement processing, so the position of a dead agent is
unchanged on the next tick. -/
theorem C4_amended (w : World) (sid : Nat) (dt : ℚ) (env : Env) (s : NPC) (p : Vec3) (r : Bool)
    (hfind : w.find sid = some s) (hdead : s.isDead = true) :
    (s.moveToPos p r).isMoving = true ∧
    (s.moveToPos p r).isDead = true ∧
    (s.moveToPos p r).position = s.position ∧
    ∃ s2, ((npcUpdate (w.set (s.moveToPos p r)) sid dt env).1).find sid = some s2 ∧
      s2.position = s.position ∧ s2.isDead = true := by
  have hsid : s.id = sid := by simpa using find?_mem_pred hfind
  have hfind2 : (w.set (s.moveToPos p r)).find sid = some (s.moveToPos p r) :=
    World.find_set w sid _ hsid (by rw [hfind]; rfl)
  have hup := npcUpdate_dead (w.set (s.moveToPos p r)) sid dt env _ hfind2 hdead
  obtain ⟨kid, kpos, kdead, -, -⟩ := deathPhase_keeps (s.moveToPos p r) dt
  refine ⟨rfl, hdead, rfl, (deathPhase (s.moveToPos p r) dt).1, ?_, kpos, kdead.trans hdead⟩
  rw [congrArg Prod.fst hup]
  exact World.find_set _ sid _ (kid.trans hsid) (by rw [hfind2]; rfl)

/-- C4 amended, witness at the concrete dead villager. -/
theorem C4_amended_witness :
    (deadNPC.moveToPos ⟨5, 0, 5⟩ false).isMoving = true ∧
    ∃ s2, ((npcUpdate ((World.mk [deadNPC]).set (deadNPC.moveToPos ⟨5, 0, 5⟩ false)) 1 1 envQuiet).1).find 1
        = some s2 ∧ s2.position = deadNPC.position ∧ s2.isDead = true := by
  have h := C4_amended ⟨[deadNPC]⟩ 1 1 envQuiet deadNPC ⟨5, 0, 5⟩ false (by decide) (by decide)
  exact ⟨h.1, h.2.2.2⟩

/-- C9: two overlapping idle agents never separate: the two villagers one
unit apart (less than twice the collision radius 0.75) are a fixed point
of the simulation tick, for any number of ticks, because collision
correction only runs inside the movement, combat and follow branches. -/
theorem C9_counterexample :
    npcIdle1.position.distanceTo npcIdle2.position = 1 ∧
    ((1 : ℚ) < (3/4) * 2) ∧
    c9Tick c9W = c9W ∧
    (∀ n : ℕ, c9Tick^[n] c9W = c9W) := by
  refine ⟨by decide, by decide, by decide, ?_⟩
  intro n
  exact Function.iterate_fixed (by decide) n

/-- C9 amended: an idle agent (no movement, combat, following, hit stun,
attack animation or knockback) is left exactly unchanged by its update,
so a pair of idle agents keeps its separation forever; collision
correction applies only to agents that are moving, fighting or
following. -/
theorem C9_amended (w : World) (sid1 sid2 : Nat) (dt : ℚ) (env : Env) (s1 s2 : NPC)
    (h1 : w.find sid1 = some s1) (h2 : w.find sid2 = some s2)
    (hu1 : ∀ n ∈ w.npcs, n.id = sid1 → n = s1)
    (hu2 : ∀ n ∈ w.npcs, n.id = sid2 → n = s2)
    (hidle1 : s1.isDead = false ∧ s1.isMoving = false ∧ s1.inCombat = false ∧
      s1.isFollowing = false ∧ s1.isHit = false ∧ s1.isAttacking = false ∧
      s1.knockbackVelocity = Vec3.zero)
    (hidle2 : s2.isDead = false ∧ s2.isMoving = false ∧ s2.inCombat = false ∧
      s2.isFollowing = false ∧ s2.isHit = false ∧ s2.isAttacking = false ∧
      s2.knockbackVelocity = Vec3.zero) :
    (npcUpdate ((npcUpdate w sid1 dt env).1) sid2 dt env).1 = w := by
  obtain ⟨a1, a2, a3, a4, a5, a6, a7⟩ := hidle1
  obtain ⟨b1, b2, b3, b4, b5, b6, b7⟩ := hidle2
  have e1 : npcUpdate w sid1 dt env = (w, false) :=
    npcUpdate_idle w sid1 dt env s1 h1 hu1 a1 a2 a3 a4 a5 a6 a7
  rw [congrArg Prod.fst e1]
  have e2 : npcUpdate w sid2 dt env = (w, false) :=
    npcUpdate_idle w sid2 dt env s2 h2 hu2 b1 b2 b3 b4 b5 b6 b7
  rw [congrArg Prod.fst e2]

/-- C9 amended, witness at the two concrete idle villagers. -/
theorem C9_amended_witness :
    (npcUpdate ((npcUpdate c9W 1 1 envQuiet).1) 2 1 envQuiet).1 = c9W :=
  C9_amended c9W 1 2 1 envQuiet npcIdle1 npcIdle2 (by decide) (by decide)
    (by decide) (by decide) (by decide) (by decide)

/-- C7: starting from the agent construction (currentHealth equal to a
nonnegative maxHealth) every sequence of damage and heal calls with
nonnegative amounts keeps health within the invariant bounds, and damage
and heal are exactly the clamped updates the claim states. -/
theorem C7_invariant (m : ℚ) (hm : 0 ≤ m) (ops : List HealthOp)
    (hops : ∀ op ∈ ops, 0 ≤ op.amount) :
    (0 ≤ (ops.foldl applyHealthOp (HealthComponent.create m (some m))).currentHealth ∧
      (ops.foldl applyHealthOp (HealthComponent.create m (some m))).currentHealth ≤
        (ops.foldl applyHealthOp (HealthComponent.create m (some m))).maxHealth) ∧
    (∀ (h : HealthComponent) (a : ℚ),
      (h.damage a).currentHealth = max 0 (h.currentHealth - a)) ∧
    (∀ (h : HealthComponent) (a : ℚ),
      (h.heal a).currentHealth = min h.maxHealth (h.currentHealth + a)) := by
  refine ⟨healthInv_foldl ops _ ⟨hm, le_refl m⟩ hops, fun h a => (damage_spec h a).1,
    fun h a => (heal_spec h a).1⟩

/-- C7 witness: a concrete run through damage and heal calls. -/
theorem C7_invariant_witness :
    (0 ≤ ([HealthOp.damageOp 30, HealthOp.healOp 50, HealthOp.damageOp 200,
        HealthOp.healOp 17].foldl applyHealthOp (HealthComponent.create 100 (some 100))).currentHealth ∧
      ([HealthOp.damageOp 30, HealthOp.healOp 50, HealthOp.damageOp 200,
        HealthOp.healOp 17].foldl applyHealthOp (HealthComponent.create 100 (some 100))).currentHealth ≤
        ([HealthOp.damageOp 30, HealthOp.healOp 50, HealthOp.damageOp 200,
          HealthOp.healOp 17].foldl applyHealthOp (HealthComponent.create 100 (some 100))).maxHealth) :=
  (C7_invariant 100 (by decide) _ (by decide)).1

theorem runUpdates_aux (beh : EMEntity → EMEntity × List EMEntity × List Nat)
    (l : List EMEntity) (acc : EMState) :
    (l.foldl (updateOne beh) acc).entities = acc.entities ++ l.map (fun e => (beh e).1) ∧
    (l.foldl (updateOne beh) acc).cleaned = acc.cleaned := by
  induction l generalizing acc with
  | nil => simp
  | cons e l ih =>
    obtain ⟨e1, e2⟩ := ih (updateOne beh acc e)
    rw [List.foldl_cons]
    refine ⟨?_, by rw [e2]; rfl⟩
    rw [e1]
    simp [updateOne]

theorem removeOne_sub (acc : EMState) (rid : Nat) :
    (∀ e ∈ (removeOne acc rid).entities, e ∈ acc.entities) ∧
    (∀ e ∈ (removeOne acc rid).cleaned, e ∈ acc.cleaned ∨ e ∈ acc.entities) := by
  unfold removeOne
  cases h : acc.entities.find? (fun e => e.id == rid) with
  | none => exact ⟨fun e he => he, fun e he => Or.inl he⟩
  | some a =>
    constructor
    · intro e he
      exact (List.eraseP_sublist _).subset he
    · intro e he
      rcases List.mem_append.mp he with h1 | h1
      · exact Or.inl h1
      · rw [List.mem_singleton.mp h1]
        exact Or.inr (List.mem_of_find?_eq_some h)

theorem foldl_removeOne_sub (l : List Nat) (acc : EMState) :
    (∀ e ∈ (l.foldl removeOne acc).entities, e ∈ acc.entities) ∧
    (∀ e ∈ (l.foldl removeOne acc).cleaned, e ∈ acc.cleaned ∨ e ∈ acc.entities) := by
  induction l generalizing acc with
  | nil => exact ⟨fun e he => he, fun e he => Or.inl he⟩
  | cons rid l ih =>
    obtain ⟨i1, i2⟩ := ih (removeOne acc rid)
    obtain ⟨r1, r2⟩ := removeOne_sub acc rid
    rw [List.foldl_cons]
    refine ⟨fun e he => r1 e (i1 e he), fun e he => ?_⟩
    rcases i2 e he with h1 | h1
    · exact r2 e h1
    · exact Or.inr (r1 e h1)

/-- C2: the per tick update of the registry processes removals after the
per entity updates, not before them: an entity staged for removal before
the tick is still updated during the tick, and its cleanup observes the
updated state (tick counter 1, not 0).  The claimed ordering, additions
then removals both before the updates, would have recorded the entity
unchanged at cleanup. -/
theorem C2_counterexample :
    (emUpdate tickBeh emSt0).cleaned = [⟨1, 1⟩] ∧
    ¬ ((emUpdate tickBeh emSt0).cleaned = [⟨1, 0⟩]) ∧
    getAllEntities (emUpdate tickBeh emSt0) = [] := by decide

/-- C2 amended: staged additions are applied before the per entity
updates and staged removals after them, at the end of the same tick, with
cleanup observing the post update state: every committed entity, whether
or not staged for removal, is updated exactly once per tick; entities
staged for addition during the tick stay invisible (everything visible
after the tick is the update image of a previously committed entity); and
every cleanup trace entry is either an earlier cleanup or the updated
state of a committed entity. -/
theorem C2_amended (beh : EMEntity → EMEntity × List EMEntity × List Nat) (st : EMState) :
    ((runUpdates beh (processAdds st)).entities
        = (processAdds st).entities.map (fun e => (beh e).1)) ∧
    (∀ e ∈ (emUpdate beh st).entities, ∃ e0 ∈ (processAdds st).entities, e = (beh e0).1) ∧
    (∀ e ∈ (emUpdate beh st).cleaned,
      e ∈ st.cleaned ∨ ∃ e0 ∈ (processAdds st).entities, e = (beh e0).1) := by
  have ha := runUpdates_aux beh (processAdds st).entities { processAdds st with entities := [] }
  have hent : (runUpdates beh (processAdds st)).entities
      = (processAdds st).entities.map (fun e => (beh e).1) := by
    unfold runUpdates
    rw [ha.1]
    simp
  have hcln : (runUpdates beh (processAdds st)).cleaned = st.cleaned := by
    unfold runUpdates
    rw [ha.2]
    rfl
  have hsub := foldl_removeOne_sub (runUpdates beh (processAdds st)).toRemove.reverse
    { runUpdates beh (processAdds st) with toRemove := [] }
  refine ⟨hent, ?_, ?_⟩
  · intro e he
    have h1 : e ∈ (runUpdates beh (processAdds st)).entities := hsub.1 e he
    rw [hent] at h1
    obtain ⟨e0, he0, heq⟩ := List.mem_map.mp h1
    exact ⟨e0, he0, heq.symm⟩
  · intro e he
    rcases hsub.2 e he with h1 | h1
    · left
      rwa [← hcln]
    · right
      rw [hent] at h1
      obtain ⟨e0, he0, heq⟩ := List.mem_map.mp h1
      exact ⟨e0, he0, heq.symm⟩

/-- C2 amended, witness: a concrete tick with one staged addition and one
staged removal; the surviving entity and the cleaned entity are both
update images of committed entities. -/
theorem C2_amended_witness :
    ((runUpdates tickBeh (processAdds emSt1)).entities
        = (processAdds emSt1).entities.map (fun e => (tickBeh e).1)) ∧
    (∃ e0 ∈ (processAdds emSt1).entities, (⟨1, 1⟩ : EMEntity) = (tickBeh e0).1) ∧
    (∃ e0 ∈ (processAdds emSt1).entities, (⟨2, 1⟩ : EMEntity) = (tickBeh e0).1) :=
  ⟨(C2_amended tickBeh emSt1).1,
   (C2_amended tickBeh emSt1).2.1 ⟨1, 1⟩ (by decide),
   ((C2_amended tickBeh emSt1).2.2 ⟨2, 1⟩ (by decide)).resolve_left (by decide)⟩

theorem takeDamage_fatal (w : World) (sid : Nat) (dmg : ℚ) (att : AttackerRef) (env : Env)
    (s : NPC) (hfind : w.find sid = some s) (halive : s.isDead = false)
    (hfatal : s.health.currentHealth ≤ dmg) :
    takeDamage w sid dmg att env
      = w.set (NPC.die { s with health := s.health.damage dmg } env.deathPhrase) := by
  unfold takeDamage
  rw [hfind]
  have hc : ({ s with health := s.health.damage dmg } : NPC).health.currentHealth ≤ (0 : ℚ) := by
    show (s.health.damage dmg).currentHealth ≤ (0 : ℚ)
    rw [(damage_spec s.health dmg).1]
    apply max_le le_rfl
    linarith
  dsimp only
  rw [if_pos ⟨hc, halive⟩]

/-- C5: lethal damage does not clear the following state: a villager that
is following another agent and takes fatal damage becomes Dead with
isMoving and inCombat false, but isFollowing stays true. -/
theorem C5_counterexample :
    ((takeDamage ⟨[NPC.startFollowing npcIdle1 npcIdle2 "follow", npcIdle2]⟩
        1 100 (.npc 2) envQuiet).find 1).map
      (fun n => (n.isDead, n.isFollowing, n.isMoving, n.inCombat))
      = some (true, true, false, false) := by decide

/-- C5 amended: fatal damage (damage at least currentHealth) makes the
agent Dead in the same call, with isMoving and inCombat cleared but
isFollowing left as it was; a subsequent MoveTo does not change the
position on the next tick because the update gate on isDead skips all
movement. -/
theorem C5_amended (w : World) (sid : Nat) (dmg : ℚ) (att : AttackerRef) (env : Env)
    (p : Vec3) (r : Bool) (dt : ℚ) (env2 : Env) (s : NPC)
    (hfind : w.find sid = some s) (halive : s.isDead = false)
    (hfatal : s.health.currentHealth ≤ dmg) :
    ∃ s1, (takeDamage w sid dmg att env).find sid = some s1 ∧
      s1.isDead = true ∧ s1.isMoving = false ∧ s1.inCombat = false ∧
      s1.isFollowing = s.isFollowing ∧ s1.position = s.position ∧
      ∃ s2, ((npcUpdate ((takeDamage w sid dmg att env).set (s1.moveToPos p r))
          sid dt env2).1).find sid = some s2 ∧ s2.position = s.position := by
  have hsid : s.id = sid := by simpa using find?_mem_pred hfind
  have htd := takeDamage_fatal w sid dmg att env s hfind halive hfatal
  set s1 := NPC.die { s with health := s.health.damage dmg } env.deathPhrase with hs1
  have hfind1 : (takeDamage w sid dmg att env).find sid = some s1 := by
    rw [htd]
    exact World.find_set w sid s1 hsid (by rw [hfind]; rfl)
  refine ⟨s1, hfind1, rfl, rfl, rfl, rfl, rfl, ?_⟩
  have hfind2 : ((takeDamage w sid dmg att env).set (s1.moveToPos p r)).find sid
      = some (s1.moveToPos p r) :=
    World.find_set _ sid _ hsid (by rw [hfind1]; rfl)
  have hup := npcUpdate_dead ((takeDamage w sid dmg att env).set (s1.moveToPos p r))
    sid dt env2 _ hfind2 rfl
  obtain ⟨kid, kpos, -, -, -⟩ := deathPhase_keeps (s1.moveToPos p r) dt
  refine ⟨(deathPhase (s1.moveToPos p r) dt).1, ?_, kpos⟩
  rw [congrArg Prod.fst hup]
  exact World.find_set _ sid _ (kid.trans hsid) (by rw [hfind2]; rfl)

/-- C5 amended, witness at the concrete following villager. -/
theorem C5_amended_witness :
    ∃ s1, (takeDamage ⟨[NPC.startFollowing npcIdle1 npcIdle2 "follow", npcIdle2]⟩
        1 100 (.npc 2) envQuiet).find 1 = some s1 ∧
      s1.isDead = true ∧ s1.isMoving = false ∧ s1.inCombat = false ∧
      s1.isFollowing = (NPC.startFollowing npcIdle1 npcIdle2 "follow").isFollowing ∧
      s1.position = (NPC.startFollowing npcIdle1 npcIdle2 "follow").position ∧
      ∃ s2, ((npcUpdate ((takeDamage ⟨[NPC.startFollowing npcIdle1 npcIdle2 "follow", npcIdle2]⟩
            1 100 (.npc 2) envQuiet).set (s1.moveToPos ⟨5, 0, 5⟩ false)) 1 1 envQuiet).1).find 1
          = some s2 ∧ s2.position = (NPC.startFollowing npcIdle1 npcIdle2 "follow").position :=
  C5_amended ⟨[NPC.startFollowing npcIdle1 npcIdle2 "follow", npcIdle2]⟩ 1 100 (.npc 2)
    envQuiet ⟨5, 0, 5⟩ false 1 envQuiet (NPC.startFollowing npcIdle1 npcIdle2 "follow")
    (by decide) (by decide) (by decide)

/-- C6: two damage applications fit into update calls spanning 1600
milliseconds: with attackRange 2 and attackInterval 1500 against a
stationary target at distance 1, ticks at 0, 800 and 1600 milliseconds
after combat start deal damage twice (at the first tick and at the 1600
millisecond tick, where the elapsed 1600 is at least the 1500 interval),
leaving the 150 health guard target at 100, not at the 125 a single
application would leave. -/
theorem C6_counterexample :
    ((c6Run.find 2).map (fun n => n.health.currentHealth) = some 100) ∧
    ¬ ((c6Run.find 2).map (fun n => n.health.currentHealth) = some 125) := by decide

/-- C6 amended: an attack attempted while the elapsed time since the last
attack is below attackInterval is rejected as a complete no-op: the world
is unchanged, so no damage is dealt and the cooldown is not reset.
Within any window shorter than attackInterval after a first attack this
yields exactly one damage application, but a window of 1600 milliseconds
allows a second application once 1500 milliseconds have elapsed. -/
theorem C6_amended (w : World) (aid tid : Nat) (env : Env) (a : NPC)
    (hfind : w.find aid = some a)
    (hcool : env.now - a.lastAttackTime < a.stats.attackInterval) :
    attack w aid tid env = w := by
  unfold attack
  rw [hfind]
  cases h2 : w.find tid with
  | none => rfl
  | some t => simp [hcool]

/-- C6 amended, witness: in the concrete combat scenario the second tick,
800 milliseconds after the first attack, leaves the world unchanged, and
the two tick run confined to less than 1500 milliseconds shows exactly
one damage application. -/
theorem C6_amended_witness :
    attack ((npcUpdate c6W 1 (4/5) (envAt 100000)).1) 1 2 (envAt 100800)
      = (npcUpdate c6W 1 (4/5) (envAt 100000)).1 ∧
    ((c6RunShort.find 2).map (fun n => n.health.currentHealth) = some 125) :=
  ⟨C6_amended ((npcUpdate c6W 1 (4/5) (envAt 100000)).1) 1 2 (envAt 100800)
      ((((npcUpdate c6W 1 (4/5) (envAt 100000)).1).find 1).getD c6A) (by decide) (by decide),
   by decide⟩

theorem vyC_zero (dt : ℚ) : vyC dt 0 = 2 := by
  unfold vyC
  push_cast
  ring

theorem vyC_succ (dt : ℚ) (n : ℕ) : vyC dt n - 98/10 * dt = vyC dt (n+1) := by
  unfold vyC
  push_cast
  ring

theorem yC_zero (dt : ℚ) : yC dt 0 = 0 := by
  unfold yC
  push_cast
  ring

theorem yC_succ (dt : ℚ) (n : ℕ) : yC dt n + (vyC dt n - 98/10 * dt) * dt = yC dt (n+1) := by
  unfold yC vyC
  push_cast
  ring

theorem knockbackPhase_vert (s : NPC) (dt vy : ℚ)
    (hvel : s.knockbackVelocity = ⟨0, vy, 0⟩) (hvy : vy ≠ 0) :
    knockbackPhase s dt =
      if s.position.y + (vy - 98/10 * dt) * dt < 0 then
        { s with position := ⟨s.position.x, 0, s.position.z⟩,
                 knockbackVelocity := ⟨0, 0, 0⟩ }
      else
        { s with position := ⟨s.position.x, s.position.y + (vy - 98/10 * dt) * dt, s.position.z⟩,
                 knockbackVelocity := ⟨0, vy - 98/10 * dt, 0⟩ } := by
  unfold knockbackPhase
  rw [hvel]
  have hpos : (Vec3.mk 0 vy 0).lengthSq > 0 := by
    have : (Vec3.mk 0 vy 0).lengthSq = vy * vy := by
      simp [Vec3.lengthSq]
    rw [this]
    exact mul_self_pos.mpr hvy
  rw [if_pos hpos]
  dsimp only [Vec3.add, Vec3.smul]
  simp only [zero_mul, add_zero, mul_zero]

theorem kstep_air_stay (s : NPC) (dt : ℚ) (n : ℕ)
    (hvy : vyC dt n ≠ 0) (hy1 : ¬ (yC dt (n+1) < 0)) :
    knockbackPhase (airNPC s dt n) dt = airNPC s dt (n+1) := by
  rw [knockbackPhase_vert (airNPC s dt n) dt (vyC dt n) rfl hvy]
  have hrec : (airNPC s dt n).position.y + (vyC dt n - 98/10 * dt) * dt = yC dt (n+1) := by
    show yC dt n + (vyC dt n - 98/10 * dt) * dt = yC dt (n+1)
    exact yC_succ dt n
  rw [hrec, vyC_succ dt n, if_neg hy1]
  rfl

theorem kstep_air_ground (s : NPC) (dt : ℚ) (n : ℕ)
    (hvy : vyC dt n ≠ 0) (hy1 : yC dt (n+1) < 0) :
    knockbackPhase (airNPC s dt n) dt = groundNPC s := by
  rw [knockbackPhase_vert (airNPC s dt n) dt (vyC dt n) rfl hvy]
  have hrec : (airNPC s dt n).position.y + (vyC dt n - 98/10 * dt) * dt = yC dt (n+1) := by
    show yC dt n + (vyC dt n - 98/10 * dt) * dt = yC dt (n+1)
    exact yC_succ dt n
  rw [hrec, if_pos hy1]
  rfl

theorem eq_air0 (s : NPC) (dt : ℚ) (hy : s.position.y = 0)
    (hvel : s.knockbackVelocity = ⟨0, 2, 0⟩) : s = airNPC s dt 0 := by
  have h1 : (⟨s.position.x, yC dt 0, s.position.z⟩ : Vec3) = s.position := by
    rw [yC_zero, ← hy]
  have h2 : (⟨0, vyC dt 0, 0⟩ : Vec3) = s.knockbackVelocity := by
    rw [vyC_zero]
    exact hvel.symm
  unfold airNPC
  rw [h1, h2]

theorem knockTick_air (s : NPC) (dt : ℚ) (env : Env) (n : ℕ)
    (hdead : s.isDead = false) (hmov : s.isMoving = false) (hcomb : s.inCombat = false)
    (hfol : s.isFollowing = false) (hhit : s.isHit = false) (hatk : s.isAttacking = false) :
    knockTick s.id dt env ⟨[airNPC s dt n]⟩ = ⟨[knockbackPhase (airNPC s dt n) dt]⟩ := by
  have h := npcUpdate_knock (airNPC s dt n) dt env hdead hmov hcomb hfol hhit hatk
  exact congrArg Prod.fst h

theorem knockTick_ground (s : NPC) (dt : ℚ) (env : Env)
    (hdead : s.isDead = false) (hmov : s.isMoving = false) (hcomb : s.inCombat = false)
    (hfol : s.isFollowing = false) (hhit : s.isHit = false) (hatk : s.isAttacking = false) :
    knockTick s.id dt env ⟨[groundNPC s]⟩ = ⟨[groundNPC s]⟩ := by
  have h := npcUpdate_knock (groundNPC s) dt env hdead hmov hcomb hfol hhit hatk
  have h2 : knockbackPhase (groundNPC s) dt = groundNPC s :=
    knockbackPhase_of_zero (groundNPC s) dt rfl
  rw [h2] at h
  exact congrArg Prod.fst h

theorem knock_traj (s : NPC) (dt : ℚ) (env : Env)
    (hdead : s.isDead = false) (hmov : s.isMoving = false) (hcomb : s.inCombat = false)
    (hfol : s.isFollowing = false) (hhit : s.isHit = false) (hatk : s.isAttacking = false)
    (hy : s.position.y = 0) (hvel : s.knockbackVelocity = ⟨0, 2, 0⟩)
    (hnz : ∀ n : ℕ, 0 < n → vyC dt n ≠ 0) :
    ∀ n : ℕ, ((knockTick s.id dt env)^[n] ⟨[s]⟩ = ⟨[groundNPC s]⟩) ∨
      ((knockTick s.id dt env)^[n] ⟨[s]⟩ = ⟨[airNPC s dt n]⟩ ∧ 0 ≤ yC dt n) := by
  intro n
  induction n with
  | zero =>
    right
    constructor
    · rw [Function.iterate_zero_apply]
      rw [← eq_air0 s dt hy hvel]
    · rw [yC_zero]
  | succ n ih =>
    rw [Function.iterate_succ_apply']
    rcases ih with h | ⟨h, hge⟩
    · left
      rw [h]
      exact knockTick_ground s dt env hdead hmov hcomb hfol hhit hatk
    · have hvy : vyC dt n ≠ 0 := by
        cases n with
        | zero => rw [vyC_zero]; norm_num
        | succ k => exact hnz (k+1) (Nat.succ_pos k)
      rw [h, knockTick_air s dt env n hdead hmov hcomb hfol hhit hatk]
      by_cases hgr : yC dt (n+1) < 0
      · left
        rw [kstep_air_ground s dt n hvy hgr]
      · right
        rw [kstep_air_stay s dt n hvy hgr]
        exact ⟨rfl, not_lt.mp hgr⟩

theorem yC_ceil_neg (dt : ℚ) (hd : 0 < dt) : yC dt ⌈(20:ℚ)/(49*dt)⌉₊ < 0 := by
  set N := ⌈(20:ℚ)/(49*dt)⌉₊ with hN
  have h1 : (20:ℚ)/(49*dt) ≤ N := Nat.le_ceil _
  have hNpos : 0 < N := Nat.ceil_pos.mpr (by positivity)
  have hNQ : (0:ℚ) < N := by exact_mod_cast hNpos
  have h49 : (0:ℚ) < 49 * dt := by positivity
  rw [div_le_iff₀ h49] at h1
  unfold yC
  nlinarith [mul_pos hd hNQ]

/-- C8: two failures of the knockback claim.  With deltaTime 1 the very
first tick puts the agent on the ground (the gravity step makes the
integrated height negative immediately), so it never rises.  With
deltaTime 5/49 the vertical velocity reaches exactly zero while airborne,
velocity damping keeps it zero, and the knockback branch is skipped from
then on: the agent hovers at height 5/49 forever and never returns to the
ground.  The horizontal knockback magnitude, zero throughout, also never
strictly decreases. -/
theorem C8_counterexample :
    (∀ n : ℕ, ∃ sn, (knockTick 1 1 envQuiet)^[n] ⟨[knockNPC]⟩ = ⟨[sn]⟩ ∧
      sn.position.y = 0) ∧
    (∀ n : ℕ, 1 ≤ n → ∃ sn, (knockTick 1 (5/49) envQuiet)^[n] ⟨[knockNPC]⟩ = ⟨[sn]⟩ ∧
      sn.position.y = 5/49) := by
  constructor
  · intro n
    cases n with
    | zero => exact ⟨knockNPC, rfl, by decide⟩
    | succ k =>
      refine ⟨groundNPC knockNPC, ?_, by decide⟩
      rw [Function.iterate_succ_apply]
      have h1 : knockTick 1 1 envQuiet ⟨[knockNPC]⟩ = ⟨[groundNPC knockNPC]⟩ := by decide
      rw [h1]
      exact Function.iterate_fixed (by decide) k
  · intro n hn
    obtain ⟨k, rfl⟩ := Nat.exists_eq_add_of_le hn
    cases k with
    | zero =>
      refine ⟨{ knockNPC with position := ⟨0, 5/49, 0⟩, knockbackVelocity := ⟨0, 1, 0⟩ }, ?_, by decide⟩
      decide
    | succ m =>
      refine ⟨{ knockNPC with position := ⟨0, 5/49, 0⟩, knockbackVelocity := ⟨0, 0, 0⟩ }, ?_, by decide⟩
      have e2 : (knockTick 1 (5/49) envQuiet)^[1 + 1] ⟨[knockNPC]⟩
          = ⟨[{ knockNPC with position := ⟨0, 5/49, 0⟩, knockbackVelocity := ⟨0, 0, 0⟩ }]⟩ := by
        decide
      have : 1 + (m + 1) = m + (1 + 1) := by omega
      rw [this, Function.iterate_add_apply, e2]
      exact Function.iterate_fixed (by decide) m

/-- C8 amended: for deltaTime strictly between 0 and 10/49 (so the first
integrated step is upward) and avoiding the exact airborne zero velocity
degeneracy (no n with 9.8 dt n = 2), an agent at height zero receiving
knockback velocity (0,2,0) rises on the first tick and is back on the
ground, velocity zeroed, within a bounded number of ticks (every tick
from some N on shows the grounded rest state); the horizontal knockback
velocity components are identically zero the whole time (the claimed
strict decrease of the horizontal magnitude is vacuously a constant
zero). -/
theorem C8_amended (s : NPC) (dt : ℚ) (env : Env)
    (hdead : s.isDead = false) (hmov : s.isMoving = false) (hcomb : s.inCombat = false)
    (hfol : s.isFollowing = false) (hhit : s.isHit = false) (hatk : s.isAttacking = false)
    (hy : s.position.y = 0) (hvel : s.knockbackVelocity = ⟨0, 2, 0⟩)
    (hd : 0 < dt) (hlt : dt < 10/49)
    (hnz : ∀ n : ℕ, 0 < n → vyC dt n ≠ 0) :
    ((knockTick s.id dt env)^[1] ⟨[s]⟩ = ⟨[airNPC s dt 1]⟩ ∧ 0 < yC dt 1) ∧
    (∃ N : ℕ, ∀ m : ℕ, (knockTick s.id dt env)^[N + m] ⟨[s]⟩ = ⟨[groundNPC s]⟩) ∧
    (∀ n : ℕ, ∃ sn, (knockTick s.id dt env)^[n] ⟨[s]⟩ = ⟨[sn]⟩ ∧
      sn.knockbackVelocity.x = 0 ∧ sn.knockbackVelocity.z = 0) := by
  have htraj := knock_traj s dt env hdead hmov hcomb hfol hhit hatk hy hvel hnz
  have hy1 : 0 < yC dt 1 := by
    unfold yC
    push_cast
    nlinarith
  refine ⟨?_, ?_, ?_⟩
  · constructor
    · rw [Function.iterate_one]
      have h0 : (⟨[s]⟩ : World) = ⟨[airNPC s dt 0]⟩ := by
        rw [← eq_air0 s dt hy hvel]
      rw [h0, knockTick_air s dt env 0 hdead hmov hcomb hfol hhit hatk]
      rw [kstep_air_stay s dt 0 (by rw [vyC_zero]; norm_num) (not_lt.mpr (le_of_lt hy1))]
    · exact hy1
  · refine ⟨⌈(20:ℚ)/(49*dt)⌉₊, fun m => ?_⟩
    have hground : (knockTick s.id dt env)^[⌈(20:ℚ)/(49*dt)⌉₊] ⟨[s]⟩ = ⟨[groundNPC s]⟩ := by
      rcases htraj ⌈(20:ℚ)/(49*dt)⌉₊ with h | ⟨-, hge⟩
      · exact h
      · exact absurd (yC_ceil_neg dt hd) (not_lt.mpr hge)
    rw [add_comm, Function.iterate_add_apply, hground]
    exact Function.iterate_fixed
      (knockTick_ground s dt env hdead hmov hcomb hfol hhit hatk) m
  · intro n
    rcases htraj n with h | ⟨h, -⟩
    · exact ⟨groundNPC s, h, rfl, rfl⟩
    · exact ⟨airNPC s dt n, h, rfl, rfl⟩

/-- C8 amended, witness at the concrete knocked villager with deltaTime
one tenth of a second. -/
theorem C8_amended_witness :
    ((knockTick 1 (1/10) envQuiet)^[1] ⟨[knockNPC]⟩ = ⟨[airNPC knockNPC (1/10) 1]⟩ ∧
      0 < yC (1/10) 1) ∧
    (∃ N : ℕ, ∀ m : ℕ,
      (knockTick 1 (1/10) envQuiet)^[N + m] ⟨[knockNPC]⟩ = ⟨[groundNPC knockNPC]⟩) := by
  have h := C8_amended knockNPC (1/10) envQuiet (by decide) (by decide) (by decide)
    (by decide) (by decide) (by decide) (by decide) (by decide) (by norm_num) (by norm_num)
    (by
      intro n hn hcon
      unfold vyC at hcon
      have h2 : (49 : ℚ) * n = 100 := by linarith
      have h3 : 49 * n = 100 := by exact_mod_cast h2
      omega)
  exact ⟨h.1, h.2.1⟩
